import Mathlib

/-!
Verification of the reprox reconciliation loop (main.go).

The embedding models the data flow of `updateRoutes` and its helpers:
container discovery produces candidate routes, `routesChanged` diffs them
against the committed table, and on a change the cycle commits the table,
ensures certificates, renders and writes the nginx config, reloads nginx
and finally runs certbot.  External effects (subprocesses, the config
file) are captured by an oracle of failure outcomes, an explicit state,
and a trace of attempted external actions.
-/

namespace Reprox

/-- A route, as in main.go: `type Route struct { Host, Upstream string }`. -/
structure Route where
  Host : String
  Upstream : String
deriving DecidableEq, Repr

/-- The fields of a Docker container summary that updateRoutes reads:
`container.Names` and `container.Labels` (the label map modelled as an
association list with unique keys, looked up by `lookupLabel`). -/
structure ContainerSummary where
  Names : List String
  Labels : List (String × String)
deriving DecidableEq, Repr

/-- Lookup in the label map: `container.Labels["reprox.host"]` returns the
value and ok=true when the key is present. -/
def lookupLabel : List (String × String) → String → Option String
  | [], _ => none
  | (k, v) :: rest, key => if k = key then some v else lookupLabel rest key

/-- Embeds `strings.TrimPre..fix(name, "/")`: removes one leading "/" when
present, otherwise returns the string unchanged. -/
def trimSlash (s : String) : String :=
  match s.data with
  | [] => s
  | c :: rest => if c = '/' then String.mk rest else s

/-- The route a single container contributes, if any: skipped when it has
no name (`len(container.Names) == 0`), no `reprox.host` label, or an empty
label value; otherwise one route with the label value as Host and the
first name with a leading "/" stripped as Upstream (main.go lines 133-145). -/
def candidateRoute (c : ContainerSummary) : Option Route :=
  match c.Names with
  | [] => none
  | n :: _ =>
    match lookupLabel c.Labels "reprox.host" with
    | none => none
    | some host => if host = "" then none else some { Host := host, Upstream := trimSlash n }

/-- One iteration of the updateRoutes accumulation loop (main.go lines
133-145): skip the container when it has no name, no label or an empty
label value, otherwise append one route. -/
def buildRoutesStep (acc : List Route) (c : ContainerSummary) : List Route :=
  match c.Names with
  | [] => acc
  | n :: _ =>
    match lookupLabel c.Labels "reprox.host" with
    | none => acc
    | some host =>
      if host = "" then acc
      else acc ++ [{ Host := host, Upstream := trimSlash n }]

/-- The accumulation loop of updateRoutes: `newRoutes := []Route{}` and one
append per qualifying container, in discovery order. -/
def buildRoutes (containers : List ContainerSummary) : List Route :=
  containers.foldl buildRoutesStep []

/-- Embeds routesChanged (main.go lines 178-188): true when the lengths
differ, otherwise true when some position holds structurally different
routes. -/
def routesChanged (newRoutes current : List Route) : Bool :=
  if newRoutes.length != current.length then true
  else (newRoutes.zip current).any fun p => p.1 != p.2

/-- The per-route body of configTemplate (the text between the range and
end actions), with the Host and Upstream fields substituted.  Braces and
apostrophes of the nginx syntax are written as escapes. -/
def routeBlock (r : Route) : String :=
  "\nserver \x7b\n    listen 80;\n    listen [::]:80;\n    server_name "
    ++ r.Host
    ++ ";\n    return 301 https://$host$request_uri;\n\x7d\n\nserver \x7b\n    listen 443 ssl http2;\n    listen [::]:443 ssl http2;\n    server_name "
    ++ r.Host
    ++ ";\n\n    ssl_certificate /etc/letsencrypt/live/"
    ++ r.Host
    ++ "/fullchain.pem;\n    ssl_certificate_key /etc/letsencrypt/live/"
    ++ r.Host
    ++ "/privkey.pem;\n\n    ssl_protocols TLSv1.2 TLSv1.3;\n    ssl_ciphers EECDH+AESGCM:EECDH+CHACHA20:EDH+AESGCM;\n    ssl_prefer_server_ciphers on;\n    ssl_session_cache shared:SSL:10m;\n    ssl_session_timeout 1h;\n    ssl_session_tickets off;\n\n    location / \x7b\n        proxy_pass http://"
    ++ r.Upstream
    ++ ";\n        proxy_http_version 1.1;\n        proxy_set_header Upgrade $http_upgrade;\n        proxy_set_header Connection \x27upgrade\x27;\n        proxy_set_header Host $host;\n        proxy_cache_bypass $http_upgrade;\n    \x7d\n\x7d\n"

/-- Execution of configTemplate on a route slice: the range action emits
one routeBlock per route, in order, and nothing else. -/
def renderConfig : List Route → String
  | [] => ""
  | r :: rs => routeBlock r ++ renderConfig rs

/-- Template execution as a step relation: the engine walks the route
slice once, appending the expanded body per route.  Used to state that
rendering is deterministic. -/
inductive Renders : List Route → String → Prop
  | nil : Renders [] ""
  | cons (r : Route) (rs : List Route) (out : String) :
      Renders rs out → Renders (r :: rs) (routeBlock r ++ out)

/-- An attempted external action of one reconciliation cycle, in the order
the code performs them. -/
inductive Event where
  | ensureCert (host : String)
  | render
  | write (text : String)
  | reload
  | certbot (host : String)
deriving DecidableEq, Repr

/-- Pipeline phase of an event, for stating the ordering invariant:
certificate-ensure before render before write before reload before
certbot. -/
def phase : Event → Nat
  | .ensureCert _ => 0
  | .render => 1
  | .write _ => 2
  | .reload => 3
  | .certbot _ => 4

/-- The errors updateRoutes and certbotRun can return, one constructor per
`errors.Join` site in main.go. -/
inductive CycleError where
  | listContainers
  | ensureCert (host : String)
  | renderTemplate
  | writeFile
  | reloadNginx
  | certbotNoRoutes
  | certbotCommand (host : String)
deriving DecidableEq, Repr

/-- The state a cycle can change: the global `routes` slice and the config
file at /etc/nginx/conf.d/apps.conf (none before the first write). -/
structure SysState where
  routes : List Route
  configFile : Option String
deriving DecidableEq, Repr

/-- Outcomes of the external world for one cycle: the container list call
(none = transport failure) and which subprocess invocations fail. -/
structure Oracle where
  discovery : Option (List ContainerSummary)
  ensureFails : String → Bool
  renderFails : Bool
  writeFails : Bool
  reloadFails : Bool
  certbotFails : String → Bool

/-- Embeds ensureCertificate for one host: an openssl invocation that the
oracle may fail (main.go lines 265-283). -/
def ensureCertificate (fails : String → Bool) (host : String) : Except CycleError Unit :=
  if fails host then .error (.ensureCert host) else .ok ()

/-- The certificate-ensure loop of updateRoutes (lines 156-160): one
ensureCertificate call per route, returning on the first failure. -/
def ensureAll (fails : String → Bool) : List Route → Except CycleError Unit × List Event
  | [] => (.ok (), [])
  | r :: rs =>
    match ensureCertificate fails r.Host with
    | .error e => (.error e, [.ensureCert r.Host])
    | .ok () =>
      let rest := ensureAll fails rs
      (rest.1, .ensureCert r.Host :: rest.2)

/-- The certbot loop of certbotRun (lines 246-257): one certbot
invocation per route, returning on the first failure. -/
def certbotLoop (fails : String → Bool) : List Route → Except CycleError Unit × List Event
  | [] => (.ok (), [])
  | r :: rs =>
    if fails r.Host then (.error (.certbotCommand r.Host), [.certbot r.Host])
    else
      let rest := certbotLoop fails rs
      (rest.1, .certbot r.Host :: rest.2)

/-- Embeds certbotRun (main.go lines 241-260): errors out with no subprocess when the
route table is empty, otherwise runs the certbot loop. -/
def certbotRun (fails : String → Bool) (routes : List Route) : Except CycleError Unit × List Event :=
  match routes with
  | [] => (.error .certbotNoRoutes, [])
  | _ :: _ => certbotLoop fails routes

/-- Embeds writeConfig (main.go lines 190-206): render the template into a buffer, then
write the file; a render failure skips the write, a write failure leaves
the file unchanged. -/
def writeConfig (o : Oracle) (s : SysState) : Except CycleError Unit × SysState × List Event :=
  if o.renderFails then (.error .renderTemplate, s, [.render])
  else
    let text := renderConfig s.routes
    if o.writeFails then (.error .writeFile, s, [.render, .write text])
    else (.ok (), { s with configFile := some text }, [.render, .write text])

deriving instance DecidableEq for Except

/-- Result of one updateRoutes call: the returned error (if any), the
state afterwards, and the trace of attempted external actions. -/
structure CycleResult where
  result : Except CycleError Unit
  state : SysState
  trace : List Event
deriving DecidableEq, Repr

/-- The post-commit half of updateRoutes (main.go lines 153-175), run with
the already committed table: ensure certificates for every route, write
the config, reload nginx and run certbot, each step returning on failure
so that later steps are skipped. -/
def pipeline (o : Oracle) (s : SysState) (newRoutes : List Route) : CycleResult :=
  match (ensureAll o.ensureFails newRoutes).1 with
  | .error e => ⟨.error e, { s with routes := newRoutes }, (ensureAll o.ensureFails newRoutes).2⟩
  | .ok () =>
    match (writeConfig o { s with routes := newRoutes }).1 with
    | .error e =>
      ⟨.error e, (writeConfig o { s with routes := newRoutes }).2.1,
        (ensureAll o.ensureFails newRoutes).2 ++ (writeConfig o { s with routes := newRoutes }).2.2⟩
    | .ok () =>
      if o.reloadFails then
        ⟨.error .reloadNginx, (writeConfig o { s with routes := newRoutes }).2.1,
          (ensureAll o.ensureFails newRoutes).2
            ++ (writeConfig o { s with routes := newRoutes }).2.2 ++ [.reload]⟩
      else
        ⟨(certbotRun o.certbotFails newRoutes).1,
          (writeConfig o { s with routes := newRoutes }).2.1,
          (ensureAll o.ensureFails newRoutes).2
            ++ (writeConfig o { s with routes := newRoutes }).2.2 ++ [.reload]
            ++ (certbotRun o.certbotFails newRoutes).2⟩

/-- Embeds updateRoutes (main.go lines 126-176): list containers (returning the
error on failure), build the candidate table, return early when
routesChanged is false, otherwise commit the table and run the rest of
the pipeline. -/
def updateRoutes (o : Oracle) (s : SysState) : CycleResult :=
  match o.discovery with
  | none => ⟨.error .listContainers, s, []⟩
  | some containers =>
    let newRoutes := buildRoutes containers
    if routesChanged newRoutes s.routes = false then ⟨.ok (), s, []⟩
    else pipeline o s newRoutes

/-- Fixture: a container with one name and a reprox.host label. -/
def webContainer (name host : String) : ContainerSummary :=
  { Names := [name], Labels := [("reprox.host", host)] }

/-- Fixture: an oracle whose discovery succeeds with the given containers
and whose subprocess invocations all succeed. -/
def okOracle (cs : List ContainerSummary) : Oracle :=
  ⟨some cs, fun _ => false, false, false, false, fun _ => false⟩

/-- Fixture: the state at daemon start: no routes, no config file written. -/
def initState : SysState := ⟨[], none⟩

/-- Fixture: discovery succeeds but the config-file write fails. -/
def writeFailOracle (cs : List ContainerSummary) : Oracle :=
  ⟨some cs, fun _ => false, false, true, false, fun _ => false⟩

/-- Fixture: discovery finds two hosts and certificate-ensure fails for the
first one. -/
def ensureFailOracle : Oracle :=
  ⟨some [webContainer "/web1" "a.example.com", webContainer "/web2" "b.example.com"],
    fun h => h == "a.example.com", false, false, false, fun _ => false⟩

theorem routesChanged_cons (a b : Route) (as bs : List Route) :
    routesChanged (a :: as) (b :: bs) = ((a != b) || routesChanged as bs) := by
  unfold routesChanged
  by_cases h : as.length = bs.length
  · simp [h]
  · simp [h, bne_iff_ne]

theorem routesChanged_eq_false_iff : ∀ (n c : List Route), routesChanged n c = false ↔ n = c
  | [], [] => by simp [routesChanged]
  | [], b :: bs => by simp [routesChanged]
  | a :: as, [] => by simp [routesChanged]
  | a :: as, b :: bs => by
    rw [routesChanged_cons]
    simp [routesChanged_eq_false_iff as bs, bne_iff_ne]

theorem ensureAll_phase (f : String → Bool) :
    ∀ (rs : List Route), ∀ e ∈ (ensureAll f rs).2, phase e = 0
  | [] => by simp [ensureAll]
  | r :: rs => by
    intro e he
    by_cases hf : f r.Host = true
    · simp [ensureAll, ensureCertificate, hf] at he
      subst he
      rfl
    · simp [ensureAll, ensureCertificate, hf] at he
      rcases he with he | he
      · subst he
        rfl
      · exact ensureAll_phase f rs e he

theorem ensureAll_ok (f : String → Bool) :
    ∀ (rs : List Route), (ensureAll f rs).1 = .ok () →
      (ensureAll f rs).2 = rs.map (fun r => Event.ensureCert r.Host) ∧
      ∀ r ∈ rs, f r.Host = false
  | [] => by simp [ensureAll]
  | r :: rs => by
    intro hok
    by_cases hf : f r.Host = true
    · simp [ensureAll, ensureCertificate, hf] at hok
    · simp only [ensureAll, ensureCertificate, hf] at hok ⊢
      simp at hok
      have ih := ensureAll_ok f rs hok
      simp [ih.1, hf]
      intro r2 hr2
      exact ih.2 r2 hr2

theorem ensureAll_error_form (f : String → Bool) :
    ∀ (rs : List Route) (e : CycleError), (ensureAll f rs).1 = .error e →
      ∃ h pre, e = .ensureCert h ∧ f h = true ∧
        (ensureAll f rs).2 = pre ++ [Event.ensureCert h]
  | [] => by simp [ensureAll]
  | r :: rs => by
    intro e he
    by_cases hf : f r.Host = true
    · simp [ensureAll, ensureCertificate, hf] at he
      subst he
      refine ⟨r.Host, [], rfl, hf, ?_⟩
      simp [ensureAll, ensureCertificate, hf]
    · simp only [ensureAll, ensureCertificate, hf] at he ⊢
      simp at he
      obtain ⟨h, pre, he1, he2, he3⟩ := ensureAll_error_form f rs e he
      refine ⟨h, Event.ensureCert r.Host :: pre, he1, he2, ?_⟩
      simp [he3]

theorem certbotLoop_phase (f : String → Bool) :
    ∀ (rs : List Route), ∀ e ∈ (certbotLoop f rs).2, phase e = 4
  | [] => by simp [certbotLoop]
  | r :: rs => by
    intro e he
    by_cases hf : f r.Host = true
    · simp [certbotLoop, hf] at he
      subst he
      rfl
    · simp [certbotLoop, hf] at he
      rcases he with he | he
      · subst he
        rfl
      · exact certbotLoop_phase f rs e he

theorem certbotRun_phase (f : String → Bool) (rs : List Route) :
    ∀ e ∈ (certbotRun f rs).2, phase e = 4 := by
  cases rs with
  | nil => simp [certbotRun]
  | cons r rs => exact certbotLoop_phase f (r :: rs)

theorem certbotLoop_error_form (f : String → Bool) :
    ∀ (rs : List Route) (e : CycleError), (certbotLoop f rs).1 = .error e →
      ∃ h, e = .certbotCommand h
  | [] => by simp [certbotLoop]
  | r :: rs => by
    intro e he
    by_cases hf : f r.Host = true
    · simp [certbotLoop, hf] at he
      exact ⟨r.Host, he.symm⟩
    · simp [certbotLoop, hf] at he
      exact certbotLoop_error_form f rs e he

theorem certbotRun_error_form (f : String → Bool) (rs : List Route) (e : CycleError)
    (he : (certbotRun f rs).1 = .error e) :
    e = .certbotNoRoutes ∨ ∃ h, e = .certbotCommand h := by
  cases rs with
  | nil =>
    simp [certbotRun] at he
    exact Or.inl he.symm
  | cons r rs =>
    exact Or.inr (certbotLoop_error_form f (r :: rs) e he)

theorem certbotRun_nil (f : String → Bool) :
    certbotRun f [] = (.error .certbotNoRoutes, []) := rfl

theorem certbotRun_events_nonempty (f : String → Bool) (rs : List Route) (e : Event)
    (he : e ∈ (certbotRun f rs).2) : rs ≠ [] := by
  intro hnil
  subst hnil
  simp [certbotRun] at he

theorem pairwise_phase_const (l : List Event) (k : Nat) (h : ∀ e ∈ l, phase e = k) :
    l.Pairwise fun a b => phase a ≤ phase b := by
  induction l with
  | nil => exact List.Pairwise.nil
  | cons x xs ih =>
    refine List.Pairwise.cons ?_ (ih fun e he => h e (List.mem_cons_of_mem x he))
    intro b hb
    rw [h x (List.mem_cons_self x xs), h b (List.mem_cons_of_mem x hb)]

theorem renders_renderConfig : ∀ (rs : List Route), Renders rs (renderConfig rs)
  | [] => Renders.nil
  | r :: rs => Renders.cons r rs (renderConfig rs) (renders_renderConfig rs)

theorem writeConfig_spec (o : Oracle) (s : SysState) :
    (o.renderFails = true ∧ writeConfig o s = (.error .renderTemplate, s, [.render]))
  ∨ (o.renderFails = false ∧ o.writeFails = true ∧
      writeConfig o s = (.error .writeFile, s, [.render, .write (renderConfig s.routes)]))
  ∨ (o.renderFails = false ∧ o.writeFails = false ∧
      writeConfig o s =
        (.ok (), { s with configFile := some (renderConfig s.routes) },
          [.render, .write (renderConfig s.routes)])) := by
  by_cases hr : o.renderFails = true
  · exact Or.inl ⟨hr, by simp [writeConfig, hr]⟩
  · rw [Bool.not_eq_true] at hr
    by_cases hw : o.writeFails = true
    · exact Or.inr (Or.inl ⟨hr, hw, by simp [writeConfig, hr, hw]⟩)
    · rw [Bool.not_eq_true] at hw
      exact Or.inr (Or.inr ⟨hr, hw, by simp [writeConfig, hr, hw]⟩)

theorem pipeline_spec (o : Oracle) (s : SysState) (nr : List Route) :
    (∃ h pre,
      (ensureAll o.ensureFails nr).1 = .error (.ensureCert h) ∧ o.ensureFails h = true ∧
      pipeline o s nr =
        ⟨.error (.ensureCert h), { s with routes := nr }, pre ++ [Event.ensureCert h]⟩ ∧
      (∀ e ∈ pre ++ [Event.ensureCert h], phase e = 0))
  ∨ ((ensureAll o.ensureFails nr).1 = .ok () ∧
     (ensureAll o.ensureFails nr).2 = nr.map (fun r => Event.ensureCert r.Host) ∧
     ((o.renderFails = true ∧
        pipeline o s nr =
          ⟨.error .renderTemplate, { s with routes := nr },
            nr.map (fun r => Event.ensureCert r.Host) ++ [.render]⟩)
     ∨ (o.renderFails = false ∧ o.writeFails = true ∧
        pipeline o s nr =
          ⟨.error .writeFile, { s with routes := nr },
            nr.map (fun r => Event.ensureCert r.Host)
              ++ [.render, .write (renderConfig nr)]⟩)
     ∨ (o.renderFails = false ∧ o.writeFails = false ∧ o.reloadFails = true ∧
        pipeline o s nr =
          ⟨.error .reloadNginx,
            { s with routes := nr, configFile := some (renderConfig nr) },
            nr.map (fun r => Event.ensureCert r.Host)
              ++ [.render, .write (renderConfig nr), .reload]⟩)
     ∨ (o.renderFails = false ∧ o.writeFails = false ∧ o.reloadFails = false ∧
        pipeline o s nr =
          ⟨(certbotRun o.certbotFails nr).1,
            { s with routes := nr, configFile := some (renderConfig nr) },
            nr.map (fun r => Event.ensureCert r.Host)
              ++ [.render, .write (renderConfig nr), .reload]
              ++ (certbotRun o.certbotFails nr).2⟩))) := by
  cases hens : (ensureAll o.ensureFails nr).1 with
  | error e =>
    obtain ⟨h, pre, he1, he2, he3⟩ := ensureAll_error_form o.ensureFails nr e hens
    subst he1
    refine Or.inl ⟨h, pre, rfl, he2, ?_, ?_⟩
    · unfold pipeline
      rw [hens, he3]
    · intro e' he'
      rw [← he3] at he'
      exact ensureAll_phase o.ensureFails nr e' he'
  | ok u =>
    cases u
    obtain ⟨hmap, -⟩ := ensureAll_ok o.ensureFails nr hens
    refine Or.inr ⟨rfl, hmap, ?_⟩
    rcases writeConfig_spec o { s with routes := nr } with ⟨hr, hwc⟩ | ⟨hr, hw, hwc⟩ | ⟨hr, hw, hwc⟩
    · refine Or.inl ⟨hr, ?_⟩
      unfold pipeline
      rw [hens, hwc, hmap]
    · refine Or.inr (Or.inl ⟨hr, hw, ?_⟩)
      unfold pipeline
      rw [hens, hwc, hmap]
    · by_cases hrl : o.reloadFails = true
      · refine Or.inr (Or.inr (Or.inl ⟨hr, hw, hrl, ?_⟩))
        unfold pipeline
        rw [hens, hwc, hmap]
        simp [hrl]
      · rw [Bool.not_eq_true] at hrl
        refine Or.inr (Or.inr (Or.inr ⟨hr, hw, hrl, ?_⟩))
        unfold pipeline
        rw [hens, hwc, hmap]
        simp [hrl]

theorem updateRoutes_spec (o : Oracle) (s : SysState) :
    (o.discovery = none ∧ updateRoutes o s = ⟨.error .listContainers, s, []⟩)
  ∨ (∃ cs, o.discovery = some cs ∧ routesChanged (buildRoutes cs) s.routes = false ∧
       updateRoutes o s = ⟨.ok (), s, []⟩)
  ∨ (∃ cs, o.discovery = some cs ∧ routesChanged (buildRoutes cs) s.routes = true ∧
       updateRoutes o s = pipeline o s (buildRoutes cs)) := by
  cases hd : o.discovery with
  | none => exact Or.inl ⟨rfl, by unfold updateRoutes; rw [hd]⟩
  | some cs =>
    by_cases hch : routesChanged (buildRoutes cs) s.routes = false
    · exact Or.inr (Or.inl ⟨cs, rfl, hch, by unfold updateRoutes; rw [hd]; simp [hch]⟩)
    · rw [Bool.not_eq_false] at hch
      exact Or.inr (Or.inr ⟨cs, rfl, hch, by unfold updateRoutes; rw [hd]; simp [hch]⟩)

theorem pipeline_routes (o : Oracle) (s : SysState) (nr : List Route) :
    (pipeline o s nr).state.routes = nr := by
  rcases pipeline_spec o s nr with ⟨h, pre, _, _, hp, _⟩ | ⟨_, _, hbr⟩
  · rw [hp]
  · rcases hbr with ⟨_, hp⟩ | ⟨_, _, hp⟩ | ⟨_, _, _, hp⟩ | ⟨_, _, _, hp⟩ <;> rw [hp]

theorem phase_mem_map_ensure (nr : List Route) (e : Event)
    (he : e ∈ nr.map fun r => Event.ensureCert r.Host) : phase e = 0 := by
  rw [List.mem_map] at he
  obtain ⟨r, -, hr⟩ := he
  rw [← hr]
  rfl

theorem pairwise_phase_append (l1 l2 : List Event)
    (h1 : l1.Pairwise fun a b => phase a ≤ phase b)
    (h2 : l2.Pairwise fun a b => phase a ≤ phase b)
    (h12 : ∀ a ∈ l1, ∀ b ∈ l2, phase a ≤ phase b) :
    (l1 ++ l2).Pairwise fun a b => phase a ≤ phase b :=
  List.pairwise_append.mpr ⟨h1, h2, h12⟩

theorem buildRoutesStep_eq (acc : List Route) (c : ContainerSummary) :
    buildRoutesStep acc c = acc ++ (candidateRoute c).toList := by
  unfold buildRoutesStep candidateRoute
  cases c.Names with
  | nil => simp
  | cons n ns =>
    cases lookupLabel c.Labels "reprox.host" with
    | none => simp
    | some host =>
      by_cases hh : host = ""
      · simp [hh]
      · simp [hh]

theorem foldl_buildRoutesStep :
    ∀ (cs : List ContainerSummary) (acc : List Route),
      cs.foldl buildRoutesStep acc = acc ++ cs.filterMap candidateRoute
  | [], acc => by simp
  | c :: cs, acc => by
    rw [List.foldl_cons, buildRoutesStep_eq, foldl_buildRoutesStep cs]
    cases hc : candidateRoute c with
    | none => simp [List.filterMap_cons, hc]
    | some r => simp [List.filterMap_cons, hc]

theorem buildRoutes_eq_filterMap (cs : List ContainerSummary) :
    buildRoutes cs = cs.filterMap candidateRoute := by
  rw [buildRoutes, foldl_buildRoutesStep]
  simp

theorem updateRoutes_nochange (o : Oracle) (s : SysState) (cs : List ContainerSummary)
    (hd : o.discovery = some cs)
    (heq : routesChanged (buildRoutes cs) s.routes = false) :
    updateRoutes o s = ⟨.ok (), s, []⟩ := by
  unfold updateRoutes
  rw [hd]
  simp [heq]

theorem updateRoutes_commit (o : Oracle) (s : SysState) (cs : List ContainerSummary)
    (hd : o.discovery = some cs)
    (hch : routesChanged (buildRoutes cs) s.routes = true) :
    (updateRoutes o s).state.routes = buildRoutes cs := by
  unfold updateRoutes
  rw [hd]
  simp [hch, pipeline_routes]

/-- C7: the diff `routesChanged` reports the tables as equal (returns
false) exactly when the new and current route tables are element-wise
structurally equal in the same order; any added, removed, reordered or
field-wise mutated route makes it report a change. -/
theorem routesChanged_exact_equality (n c : List Route) :
    routesChanged n c = false ↔ n = c :=
  routesChanged_eq_false_iff n c

/-- C8: the candidate table built from a discovered container list holds
exactly one route per container with a non-empty name list and a non-empty
reprox.host label — Host the label value, Upstream the first name with a
leading slash stripped — and no route for any other container. -/
theorem discovery_candidate_routes (cs : List ContainerSummary) :
    buildRoutes cs = cs.filterMap candidateRoute :=
  buildRoutes_eq_filterMap cs

/-- C10: rendering is deterministic — any two executions of the config
template on the same ordered route sequence produce the same output
text. -/
theorem render_deterministic (rs : List Route) (out1 out2 : String)
    (h1 : Renders rs out1) (h2 : Renders rs out2) : out1 = out2 := by
  induction h1 generalizing out2 with
  | nil => cases h2; rfl
  | cons r rs out h ih =>
    cases h2 with
    | cons _ _ out2 h2 => rw [ih _ h2]

/-- C10 witness: two template executions on a singleton table agree. -/
theorem render_deterministic_witness :
    routeBlock { Host := "a.example.com", Upstream := "web1" } ++ "" =
      renderConfig [{ Host := "a.example.com", Upstream := "web1" }] :=
  render_deterministic [{ Host := "a.example.com", Upstream := "web1" }] _ _
    (Renders.cons _ _ _ Renders.nil) (renders_renderConfig _)

/-- C4: when the candidate table is diff-equal to the current one, the
cycle has no side effects: ok result, state (route table and config file)
unchanged, and an empty trace — no write, no reload, no certificate
subprocess. -/
theorem no_change_no_side_effects (o : Oracle) (s : SysState) (cs : List ContainerSummary)
    (hd : o.discovery = some cs)
    (heq : routesChanged (buildRoutes cs) s.routes = false) :
    updateRoutes o s = ⟨.ok (), s, []⟩ :=
  updateRoutes_nochange o s cs hd heq

/-- C4 witness: rediscovering the already committed container changes
nothing. -/
theorem no_change_no_side_effects_witness :
    updateRoutes (okOracle [webContainer "/web1" "a.example.com"])
        ⟨[{ Host := "a.example.com", Upstream := "web1" }], none⟩ =
      ⟨.ok (), ⟨[{ Host := "a.example.com", Upstream := "web1" }], none⟩, []⟩ :=
  no_change_no_side_effects _ _ [webContainer "/web1" "a.example.com"] rfl (by decide)

/-- C5: when the container list call fails, updateRoutes returns the error
with the state exactly as before and no external action performed. -/
theorem discovery_failure_skips_cycle (o : Oracle) (s : SysState)
    (hd : o.discovery = none) :
    updateRoutes o s = ⟨.error .listContainers, s, []⟩ := by
  unfold updateRoutes
  rw [hd]

/-- C5 witness: a failing discovery call leaves a populated state alone. -/
theorem discovery_failure_skips_cycle_witness :
    updateRoutes ⟨none, fun _ => false, false, false, false, fun _ => false⟩
        ⟨[{ Host := "a.example.com", Upstream := "web1" }], some "cfg"⟩ =
      ⟨.error .listContainers,
        ⟨[{ Host := "a.example.com", Upstream := "web1" }], some "cfg"⟩, []⟩ :=
  discovery_failure_skips_cycle _ _ rfl

/-- C1 counterexample: two containers carrying the same reprox.host label;
the table committed by the cycle holds two routes with that host, so host
values are not unique. -/
theorem duplicate_hosts_committed :
    (updateRoutes (okOracle [webContainer "/web1" "a.example.com",
        webContainer "/web2" "a.example.com"]) initState).state.routes =
      [{ Host := "a.example.com", Upstream := "web1" },
       { Host := "a.example.com", Upstream := "web2" }] ∧
    ¬ ((updateRoutes (okOracle [webContainer "/web1" "a.example.com",
        webContainer "/web2" "a.example.com"]) initState).state.routes.map
          Route.Host).Nodup := by
  constructor
  · decide
  · decide

/-- C1 (amended): the table committed by a changed cycle is exactly the
candidate list, one route per qualifying container in discovery order —
duplicate reprox.host labels are not deduplicated. -/
theorem committed_table_is_candidate_list (o : Oracle) (s : SysState)
    (cs : List ContainerSummary)
    (hd : o.discovery = some cs)
    (hch : routesChanged (buildRoutes cs) s.routes = true) :
    (updateRoutes o s).state.routes = buildRoutes cs :=
  updateRoutes_commit o s cs hd hch

/-- C1 witness: the duplicate-label discovery commits the full candidate
list. -/
theorem committed_table_is_candidate_list_witness :
    (updateRoutes (okOracle [webContainer "/web1" "a.example.com",
        webContainer "/web2" "a.example.com"]) initState).state.routes =
      buildRoutes [webContainer "/web1" "a.example.com",
        webContainer "/web2" "a.example.com"] :=
  committed_table_is_candidate_list _ _ _ rfl (by decide)

/-- C2 counterexample: a certificate-ensure failure for a.example.com stops
the whole cycle — b.example.com gets no certificate handling, and render,
write and reload do not happen (the trace holds the one failing ensure
call only, and the config file is untouched). -/
theorem cert_error_blocks_cycle :
    (updateRoutes ensureFailOracle initState).trace =
      [Event.ensureCert "a.example.com"] ∧
    (updateRoutes ensureFailOracle initState).result =
      .error (.ensureCert "a.example.com") ∧
    (updateRoutes ensureFailOracle initState).state.configFile = none := by
  refine ⟨?_, ?_, ?_⟩ <;> decide

/-- C2 (amended): a certificate-ensure failure for one host aborts the
cycle: the config file is left unchanged, the trace ends at the failing
ensure call, and every performed action is a certificate-ensure call — no
render, write, reload or trusted-issuance subprocess runs. -/
theorem cert_error_aborts_cycle (o : Oracle) (s : SysState) (host : String)
    (hres : (updateRoutes o s).result = .error (.ensureCert host)) :
    (updateRoutes o s).state.configFile = s.configFile ∧
    (∃ pre, (updateRoutes o s).trace = pre ++ [Event.ensureCert host]) ∧
    ∀ e ∈ (updateRoutes o s).trace, phase e = 0 := by
  rcases updateRoutes_spec o s with ⟨_, hu⟩ | ⟨cs, _, _, hu⟩ | ⟨cs, hd, hch, hu⟩
  · rw [hu] at hres
    simp at hres
  · rw [hu] at hres
    simp at hres
  · rw [hu] at hres ⊢
    rcases pipeline_spec o s (buildRoutes cs) with
      ⟨h, pre, hens, hf, hp, hph⟩ | ⟨hensok, hmap, hbr⟩
    · rw [hp] at hres ⊢
      have hh : h = host := by
        simpa using hres
      subst hh
      exact ⟨rfl, ⟨pre, rfl⟩, hph⟩
    · exfalso
      rcases hbr with ⟨_, hp⟩ | ⟨_, _, hp⟩ | ⟨_, _, _, hp⟩ | ⟨_, _, _, hp⟩ <;>
        rw [hp] at hres
      · simp at hres
      · simp at hres
      · simp at hres
      · rcases certbotRun_error_form o.certbotFails (buildRoutes cs) _ hres with
          h1 | ⟨x, h2⟩
        · simp at h1
        · simp at h2

/-- C2 witness: the amended claim at the concrete failing discovery. -/
theorem cert_error_aborts_cycle_witness :
    (updateRoutes ensureFailOracle initState).state.configFile =
      initState.configFile ∧
    (∃ pre, (updateRoutes ensureFailOracle initState).trace =
      pre ++ [Event.ensureCert "a.example.com"]) ∧
    ∀ e ∈ (updateRoutes ensureFailOracle initState).trace, phase e = 0 :=
  cert_error_aborts_cycle ensureFailOracle initState "a.example.com" (by decide)

/-- C3: the trace of a cycle only moves forward through the pipeline
(certificate-ensure, then render, then write, then reload, then certbot);
a failed write never triggers a reload, a failed render triggers neither
write nor reload, a reload failure stops the trusted-issuance run, a
certificate-ensure failure stops rendering, writing, reloading and
issuance alike, and when rendering happened every committed route had its
certificate ensured first. -/
theorem cycle_step_ordering (o : Oracle) (s : SysState) :
    ((updateRoutes o s).trace.Pairwise fun a b => phase a ≤ phase b) ∧
    (o.writeFails = true → Event.reload ∉ (updateRoutes o s).trace) ∧
    (o.renderFails = true →
      (∀ t, Event.write t ∉ (updateRoutes o s).trace) ∧
        Event.reload ∉ (updateRoutes o s).trace) ∧
    (o.reloadFails = true → ∀ h, Event.certbot h ∉ (updateRoutes o s).trace) ∧
    (∀ host, (updateRoutes o s).result = .error (.ensureCert host) →
      Event.render ∉ (updateRoutes o s).trace ∧
      (∀ t, Event.write t ∉ (updateRoutes o s).trace) ∧
      Event.reload ∉ (updateRoutes o s).trace ∧
      ∀ h2, Event.certbot h2 ∉ (updateRoutes o s).trace) ∧
    (Event.render ∈ (updateRoutes o s).trace →
      ∀ r ∈ (updateRoutes o s).state.routes,
        Event.ensureCert r.Host ∈ (updateRoutes o s).trace) := by
  rcases updateRoutes_spec o s with ⟨_, hu⟩ | ⟨cs, _, _, hu⟩ | ⟨cs, hd, hch, hu⟩
  · rw [hu]
    exact ⟨List.Pairwise.nil, by simp, by simp, by simp, by simp, by simp⟩
  · rw [hu]
    exact ⟨List.Pairwise.nil, by simp, by simp, by simp, by simp, by simp⟩
  · rw [hu]
    rcases pipeline_spec o s (buildRoutes cs) with
      ⟨h, pre, hens, hf, hp, hph⟩ | ⟨hensok, hmap, hbr⟩
    · rw [hp]
      have hmem0 : ∀ (x : Event), phase x ≠ 0 → x ∉ pre ++ [Event.ensureCert h] :=
        fun x hx hmemx => hx (hph x hmemx)
      refine ⟨pairwise_phase_const _ 0 hph, ?_, ?_, ?_, ?_, ?_⟩
      · intro _
        exact hmem0 .reload (by simp [phase])
      · intro _
        exact ⟨fun t => hmem0 (.write t) (by simp [phase]), hmem0 .reload (by simp [phase])⟩
      · intro _ h2
        exact hmem0 (.certbot h2) (by simp [phase])
      · intro host _
        exact ⟨hmem0 .render (by simp [phase]),
          fun t => hmem0 (.write t) (by simp [phase]),
          hmem0 .reload (by simp [phase]),
          fun h2 => hmem0 (.certbot h2) (by simp [phase])⟩
      · intro hmemr
        exact absurd (hph _ hmemr) (by simp [phase])
    · have hM : ∀ e ∈ (buildRoutes cs).map (fun r => Event.ensureCert r.Host),
          phase e = 0 := phase_mem_map_ensure (buildRoutes cs)
      rcases hbr with ⟨hr, hp⟩ | ⟨hr, hw, hp⟩ | ⟨hr, hw, hrl, hp⟩ | ⟨hr, hw, hrl, hp⟩ <;>
        rw [hp]
      · refine ⟨?_, ?_, ?_, ?_, ?_, ?_⟩
        · exact pairwise_phase_append _ _ (pairwise_phase_const _ 0 hM)
            (by simp [phase]) (fun a ha b _ => by rw [hM a ha]; exact Nat.zero_le _)
        · intro _
          simp [List.mem_append, List.mem_map]
        · intro _
          exact ⟨fun t => by simp [List.mem_append, List.mem_map],
            by simp [List.mem_append, List.mem_map]⟩
        · intro _ h2
          simp [List.mem_append, List.mem_map]
        · intro host hres
          simp at hres
        · intro _ r hrr
          exact List.mem_append.mpr (Or.inl (List.mem_map_of_mem _ hrr))
      · refine ⟨?_, ?_, ?_, ?_, ?_, ?_⟩
        · exact pairwise_phase_append _ _ (pairwise_phase_const _ 0 hM)
            (by simp [phase]) (fun a ha b _ => by rw [hM a ha]; exact Nat.zero_le _)
        · intro _
          simp [List.mem_append, List.mem_map]
        · intro hren
          rw [hr] at hren
          cases hren
        · intro _ h2
          simp [List.mem_append, List.mem_map]
        · intro host hres
          simp at hres
        · intro _ r hrr
          exact List.mem_append.mpr (Or.inl (List.mem_map_of_mem _ hrr))
      · refine ⟨?_, ?_, ?_, ?_, ?_, ?_⟩
        · exact pairwise_phase_append _ _ (pairwise_phase_const _ 0 hM)
            (by simp [phase]) (fun a ha b _ => by rw [hM a ha]; exact Nat.zero_le _)
        · intro hwt
          rw [hw] at hwt
          cases hwt
        · intro hren
          rw [hr] at hren
          cases hren
        · intro _ h2
          simp [List.mem_append, List.mem_map]
        · intro host hres
          simp at hres
        · intro _ r hrr
          exact List.mem_append.mpr (Or.inl (List.mem_map_of_mem _ hrr))
      · refine ⟨?_, ?_, ?_, ?_, ?_, ?_⟩
        · refine pairwise_phase_append _ _ ?_ ?_ ?_
          · exact pairwise_phase_append _ _ (pairwise_phase_const _ 0 hM)
              (by simp [phase]) (fun a ha b _ => by rw [hM a ha]; exact Nat.zero_le _)
          · exact pairwise_phase_const _ 4
              (certbotRun_phase o.certbotFails (buildRoutes cs))
          · intro a ha b hb
            rw [certbotRun_phase o.certbotFails (buildRoutes cs) b hb]
            rcases List.mem_append.mp ha with haM | haS
            · rw [hM a haM]
              exact Nat.zero_le _
            · simp at haS
              rcases haS with rfl | rfl | rfl <;> simp [phase]
        · intro hwt
          rw [hw] at hwt
          cases hwt
        · intro hren
          rw [hr] at hren
          cases hren
        · intro hrlt _
          rw [hrl] at hrlt
          cases hrlt
        · intro host hres
          rcases certbotRun_error_form o.certbotFails (buildRoutes cs) _ hres with
            h1 | ⟨x, h2⟩
          · cases h1
          · cases h2
        · intro _ r hrr
          exact List.mem_append.mpr
            (Or.inl (List.mem_append.mpr (Or.inl (List.mem_map_of_mem _ hrr))))

/-- C3 witness: at a cycle whose config write fails the ordering holds and
no reload appears in the trace. -/
theorem cycle_step_ordering_witness :
    ((updateRoutes (writeFailOracle [webContainer "/web1" "a.example.com"])
        initState).trace.Pairwise fun a b => phase a ≤ phase b) ∧
    Event.reload ∉ (updateRoutes (writeFailOracle [webContainer "/web1" "a.example.com"])
        initState).trace :=
  ⟨(cycle_step_ordering (writeFailOracle [webContainer "/web1" "a.example.com"])
      initState).1,
   (cycle_step_ordering (writeFailOracle [webContainer "/web1" "a.example.com"])
      initState).2.1 rfl⟩

/-- C9: trusted-certificate acquisition is guarded: on an empty route table
certbotRun fails fast with an error and invokes no subprocess, and any
certbot invocation a cycle performs happens with a non-empty committed
table. -/
theorem certbot_guard (f : String → Bool) (o : Oracle) (s : SysState) :
    certbotRun f [] = (.error .certbotNoRoutes, []) ∧
    ∀ host, Event.certbot host ∈ (updateRoutes o s).trace →
      (updateRoutes o s).state.routes ≠ [] := by
  refine ⟨rfl, ?_⟩
  intro host hmem
  rcases updateRoutes_spec o s with ⟨_, hu⟩ | ⟨cs, _, _, hu⟩ | ⟨cs, hd, hch, hu⟩
  · rw [hu] at hmem
    simp at hmem
  · rw [hu] at hmem
    simp at hmem
  · rw [hu] at hmem ⊢
    rcases pipeline_spec o s (buildRoutes cs) with
      ⟨h, pre, hens, hf, hp, hph⟩ | ⟨hensok, hmap, hbr⟩
    · rw [hp] at hmem
      exact absurd (hph _ hmem) (by simp [phase])
    · rcases hbr with ⟨_, hp⟩ | ⟨_, _, hp⟩ | ⟨_, _, _, hp⟩ | ⟨_, _, _, hp⟩ <;>
        rw [hp] at hmem ⊢
      · simp [List.mem_append, List.mem_map] at hmem
      · simp [List.mem_append, List.mem_map] at hmem
      · simp [List.mem_append, List.mem_map] at hmem
      · simp only [CycleResult.trace, List.mem_append, List.mem_map] at hmem
        have hcb : Event.certbot host ∈ (certbotRun o.certbotFails (buildRoutes cs)).2 := by
          rcases hmem with (hmem | hmem) | hmem
          · rcases hmem with ⟨r, -, hr⟩
            cases hr
          · simp at hmem
          · exact hmem
        have hnr := certbotRun_events_nonempty o.certbotFails (buildRoutes cs) _ hcb
        simpa using hnr

/-- C9 witness: the empty-table guard, and a successful cycle whose certbot
invocation happened indeed has a committed host. -/
theorem certbot_guard_witness :
    certbotRun (fun _ => false) [] = (.error .certbotNoRoutes, []) ∧
    (updateRoutes (okOracle [webContainer "/web1" "a.example.com"])
        initState).state.routes ≠ [] :=
  ⟨(certbot_guard (fun _ => false) (okOracle [webContainer "/web1" "a.example.com"])
      initState).1,
   (certbot_guard (fun _ => false) (okOracle [webContainer "/web1" "a.example.com"])
      initState).2 "a.example.com" (by decide)⟩

end Reprox
